import Mathlib

/-!
Shallow embedding of the MS²Rescore configuration parser
(`src/ms2rescore/config_parser.py`) and of the pre-flight portion of the
pipeline orchestrator (`src/ms2rescore/__init__.py`), together with proofs
about the behaviour of configuration resolution, validation and the
orchestrator's start-up checks.

Python dictionaries holding configuration data are embedded as `JValue`
(JSON-like trees with insertion-ordered association lists for objects).
File-system interaction is embedded as explicit state passing over an
abstract `FileSystem` plus an event trace (`FsEvent`) recording every
file-system touch the code performs, in order.  Python exceptions are
embedded as an `Err` sum returned through `Except`.
-/

set_option autoImplicit false

namespace MS2Rescore

/-- JSON-like configuration values: the shapes that `json.load`,
`tomlkit.load` and plain Python dict/list/scalar configuration data take in
`config_parser.py`. Objects are insertion-ordered association lists, like
Python dicts. -/
inductive JValue where
  | null
  | bool (b : Bool)
  | int (n : Int)
  | str (s : String)
  | obj (fields : List (String × JValue))
  | arr (items : List JValue)

/-- Python truthiness (`if not config[...]`) restricted to `JValue` shapes:
`None`, `False`, `0`, `""` and empty containers are falsy. -/
def truthy : JValue → Bool
  | .null => false
  | .bool b => b
  | .int n => n != 0
  | .str s => s != ""
  | .obj l => !l.isEmpty
  | .arr l => !l.isEmpty

/-- First-match lookup in an association list, like Python `dict.__getitem__`
(keys are unique in practice). -/
def getField : List (String × JValue) → String → Option JValue
  | [], _ => none
  | (k, v) :: rest, key => if k = key then some v else getField rest key

/-- In-place update of an association list, like Python `dict.__setitem__`:
replaces the value at an existing key, appends otherwise. -/
def setField : List (String × JValue) → String → JValue → List (String × JValue)
  | [], key, v => [(key, v)]
  | (k, w) :: rest, key, v =>
    if k = key then (k, v) :: rest else (k, w) :: setField rest key v

/-- `config[key]` on an object value; `none` on non-objects. -/
def JValue.getKey : JValue → String → Option JValue
  | .obj l, k => getField l k
  | _, _ => none

/-- `config[key] = v` on an object value; identity on non-objects. -/
def JValue.setKey : JValue → String → JValue → JValue
  | .obj l, k, v => .obj (setField l k v)
  | c, _, _ => c

/-- `config[k1][k2]` (read). -/
def get2 (c : JValue) (k1 k2 : String) : Option JValue :=
  match c.getKey k1 with
  | some sub => sub.getKey k2
  | none => none

/-- `config[k1][k2] = v` (write). Identity when `k1` is absent. -/
def set2 (c : JValue) (k1 k2 : String) (v : JValue) : JValue :=
  match c.getKey k1 with
  | some sub => c.setKey k1 (sub.setKey k2 v)
  | none => c

/-- ASCII lower-casing of one character, the embedding of Python
`str.lower()` character-wise on the ASCII key names used here. -/
def charLower (c : Char) : Char :=
  if 65 ≤ c.toNat ∧ c.toNat ≤ 90 then Char.ofNat (c.toNat + 32) else c

/-- Embedding of Python `str.lower()`. -/
def strLower (s : String) : String :=
  String.mk (s.data.map charLower)

/-- Final path component (the part after the last slash), as in
`pathlib.PurePath.name` for the simple relative paths used here. -/
def pathName (p : String) : List Char :=
  ((p.data.reverse).takeWhile (fun c => c != '/')).reverse

/-- Embedding of `pathlib.PurePath.suffix`: the extension of the final
component, including the dot; empty for names with no dot, hidden files
(leading dot) and names ending in a dot. -/
def pathSuffix (p : String) : String :=
  let name := pathName p
  match name.reverse.findIdx? (fun c => c == '.') with
  | none => ""
  | some j =>
    let i := name.length - 1 - j
    if 0 < i ∧ i < name.length - 1 then String.mk (name.drop i) else ""

/-- Embedding of `pathlib.PurePath.parent` for the simple relative paths
used here: everything before the last slash, or `"."`. -/
def parentPath (p : String) : String :=
  let name := pathName p
  if name.length = p.length then "."
  else String.mk (p.data.take (p.length - name.length - 1))

/-- Abstract file system: existing files (with their parsed configuration
content, for files read as configuration) and existing directories. -/
structure FileSystem where
  files : List (String × JValue)
  dirs : List String

/-- Content of the file at `p`, when it exists. -/
def lookupFile (fs : FileSystem) (p : String) : Option JValue :=
  getField fs.files p

/-- Embedding of `Path.is_file()`. -/
def isFile (fs : FileSystem) (p : String) : Bool :=
  (lookupFile fs p).isSome

/-- Embedding of `Path.is_dir()`. -/
def isDir (fs : FileSystem) (p : String) : Bool :=
  fs.dirs.contains p

/-- Embedding of `Path.exists()`. -/
def pathExists (fs : FileSystem) (p : String) : Bool :=
  isFile fs p || isDir fs p

/-- Embedding of `Path.mkdir(parents=True, exist_ok=True)`. -/
def mkdirFs (fs : FileSystem) (p : String) : FileSystem :=
  { fs with dirs := p :: fs.dirs }

/-- File-system touches performed by the configuration parser, in order. -/
inductive FsEvent where
  | readJson (p : String)
  | readToml (p : String)
  | statFile (p : String)
  | statPath (p : String)
  | statDir (p : String)
  | mkdirEvt (p : String)
  deriving DecidableEq

/-- Is this event a directory creation? -/
def FsEvent.isMkdir : FsEvent → Bool
  | .mkdirEvt _ => true
  | _ => false

/-- Is this event a configuration-file read? -/
def FsEvent.isConfigRead : FsEvent → Bool
  | .readJson _ => true
  | .readToml _ => true
  | _ => false

/-- Python exceptions raised by the embedded code:
`MS2RescoreConfigurationError`, `ValueError`, `FileNotFoundError` and
`KeyError`. -/
inductive Err where
  | configurationError (msg : String)
  | valueError (msg : String)
  | fileNotFound (path : String)
  | keyError (key : String)
  deriving DecidableEq

/-- Is this error an `MS2RescoreConfigurationError`? -/
def Err.isConfigError : Err → Bool
  | .configurationError _ => true
  | _ => false

/-- One element of the `configurations` argument of `parse_configurations`:
a dict, a `str`/`Path` file path, an argparse `Namespace` (attribute list),
or a value of any other type. -/
inductive ConfigSource where
  | dict (d : JValue)
  | file (path : String)
  | args (attrs : List (String × JValue))
  | other (descr : String)

/-- The error message at `config_parser.py` line 97. -/
def unknownExtMsg : String :=
  "Unknown file extension for configuration file. Should be `json` or `toml`."

/-- The error message at `config_parser.py` lines 103 to 104. -/
def badTypeMsg : String :=
  "Configuration should be a dictionary, argparse Namespace, or path to a configuration file."

/-- The error message at `config_parser.py` line 21. -/
def psmMissingMsg : String :=
  "`psm_file` should be provided."

/-- Error message used when the merged configuration fails JSON-schema
validation inside `cascade_config`. -/
def schemaMsg : String :=
  "Configuration does not match the JSON schema."

/-- Modelled from the spec: the ConfigSource adapters (spec section 4.1).
The adaptation of one element of the `configurations` loop body of
`parse_configurations` (`config_parser.py` lines 86 to 105): dicts pass
through, file paths dispatch case-insensitively on the extension with only
`.json` and `.toml` recognized, `Namespace` attributes are nested under the
`ms2rescore` subkey, and anything else raises `ValueError`. The actual
file reads performed by the `cascade_config` library (not part of this
repository's sources) are modelled as immediate reads of the parsed file
content. -/
def adaptSource (fs : FileSystem) (src : ConfigSource) :
    Except Err JValue × List FsEvent :=
  match src with
  | .dict d => (Except.ok d, [])
  | .file p =>
    if strLower (pathSuffix p) = ".json" then
      match lookupFile fs p with
      | some v => (Except.ok v, [FsEvent.readJson p])
      | none => (Except.error (Err.fileNotFound p), [FsEvent.readJson p])
    else if strLower (pathSuffix p) = ".toml" then
      match lookupFile fs p with
      | some v => (Except.ok v, [FsEvent.readToml p])
      | none => (Except.error (Err.fileNotFound p), [FsEvent.readToml p])
    else (Except.error (Err.configurationError unknownExtMsg), [])
  | .args attrs => (Except.ok (JValue.obj [("ms2rescore", JValue.obj attrs)]), [])
  | .other _ => (Except.error (Err.valueError badTypeMsg), [])

/-- Adapt every source in order, stopping at the first failure, collecting
the file-system events performed along the way. -/
def adaptAll (fs : FileSystem) : List ConfigSource → Except Err (List JValue) × List FsEvent
  | [] => (Except.ok [], [])
  | s :: rest =>
    match adaptSource fs s with
    | (Except.error e, ev) => (Except.error e, ev)
    | (Except.ok v, ev) =>
      match adaptAll fs rest with
      | (Except.error e, ev2) => (Except.error e, ev ++ ev2)
      | (Except.ok vs, ev2) => (Except.ok (v :: vs), ev ++ ev2)

/-- Merge the entries of the earlier (base) object with the matching entries
of the later object, keeping base order; `f` merges matching values. -/
def mergeBaseWith (f : JValue → JValue → JValue) :
    List (String × JValue) → List (String × JValue) → List (String × JValue)
  | [], _ => []
  | (k, v) :: rest, ns =>
    (match getField ns k with
     | some w => (k, f v w)
     | none => (k, v)) :: mergeBaseWith f rest ns

/-- One unfolding of the cascading merge: a later `null` never overrides the
earlier value; two objects merge key-by-key using `rec` on matching keys,
with the later object's new keys appended; anything else is replaced by the
later value. -/
def mergeValAux (rec : JValue → JValue → JValue) : JValue → JValue → JValue
  | base, JValue.null => base
  | JValue.obj bs, JValue.obj ns =>
    JValue.obj (mergeBaseWith rec bs ns ++ ns.filter (fun kv => (getField bs kv.1).isNone))
  | _, v => v

/-- Modelled from the spec: the cascading merge of the `cascade_config`
library (not part of this repository's sources), as configured at
`config_parser.py` lines 78 to 83 (`none_overrides_value=False`,
`max_recursion_depth=1`). A later `null` never overrides an earlier value;
objects merge key-by-key while fuel remains, deeper structures are replaced
wholesale. -/
def mergeVal : Nat → JValue → JValue → JValue
  | 0 => fun base later =>
    match later with
    | JValue.null => base
    | v => v
  | Nat.succ d => mergeValAux (mergeVal d)

/-- Top-level merge of one later source into the accumulated configuration:
two levels of key-by-key merging (the top level and one level below it),
per `max_recursion_depth=1`. -/
def mergeTop (base later : JValue) : JValue :=
  mergeVal 2 base later

/-- The cascade-resolution phase of `parse_configurations`
(`config_parser.py` lines 75 to 108): defaults first, then each adapted
source in order, then JSON-schema validation of the merged result. The
schema (`config_schema.json`, a packaged data file not present under
`src/`) is abstracted as a Boolean predicate. -/
def cascadeResolve (fs : FileSystem) (schema : JValue → Bool) (defaults : JValue)
    (sources : List ConfigSource) : Except Err JValue × List FsEvent :=
  let a := adaptAll fs sources
  (match a.1 with
   | Except.error e => Except.error e
   | Except.ok vs =>
     let merged := vs.foldl mergeTop defaults
     if schema merged then Except.ok merged
     else Except.error (Err.configurationError schemaMsg),
   a.2)

/-- Python `str(Path(v))` on a string-valued configuration entry. -/
def asString : JValue → String
  | .str s => s
  | _ => ""

/-- Embedding of `_validate_filenames` (`config_parser.py` lines 17 to 45):
`psm_file` must be truthy and an existing file; `spectrum_path`, if truthy,
must exist; `output_path`, if truthy, is created when it is not already a
directory, and otherwise defaults to the parent directory of `psm_file`.
Returns the updated configuration, the possibly-updated file system, and
the trace of file-system touches in program order. -/
def validate_filenames (fs : FileSystem) (config : JValue) :
    Except Err JValue × FileSystem × List FsEvent :=
  match get2 config "ms2rescore" "psm_file" with
  | none => (Except.error (Err.keyError "psm_file"), fs, [])
  | some psmVal =>
    if truthy psmVal = false then
      (Except.error (Err.configurationError psmMissingMsg), fs, [])
    else
      let psm := asString psmVal
      if isFile fs psm = false then
        (Except.error (Err.fileNotFound psm), fs, [FsEvent.statFile psm])
      else
        let c1 := set2 config "ms2rescore" "psm_file" (JValue.str psm)
        match get2 c1 "ms2rescore" "spectrum_path" with
        | none => (Except.error (Err.keyError "spectrum_path"), fs, [FsEvent.statFile psm])
        | some spVal =>
          let afterSpectrum : Except Err JValue × List FsEvent :=
            if truthy spVal then
              let sp := asString spVal
              if pathExists fs sp = false then
                (Except.error (Err.fileNotFound sp),
                 [FsEvent.statFile psm, FsEvent.statPath sp])
              else
                (Except.ok (set2 c1 "ms2rescore" "spectrum_path" (JValue.str sp)),
                 [FsEvent.statFile psm, FsEvent.statPath sp])
            else (Except.ok c1, [FsEvent.statFile psm])
          match afterSpectrum with
          | (Except.error e, ev) => (Except.error e, fs, ev)
          | (Except.ok c2, ev) =>
            match get2 c2 "ms2rescore" "output_path" with
            | none => (Except.error (Err.keyError "output_path"), fs, ev)
            | some opVal =>
              if truthy opVal then
                let op := asString opVal
                if isDir fs op then
                  (Except.ok (set2 c2 "ms2rescore" "output_path" (JValue.str op)), fs,
                   ev ++ [FsEvent.statDir op])
                else
                  (Except.ok (set2 c2 "ms2rescore" "output_path" (JValue.str op)),
                   mkdirFs fs op, ev ++ [FsEvent.statDir op, FsEvent.mkdirEvt op])
              else
                (Except.ok (set2 c2 "ms2rescore" "output_path"
                    (JValue.str (parentPath psm))), fs, ev)

/-- The arithmetic core of `_validate_processes` (`config_parser.py` lines
48 to 55): the sentinel `-1` and any request above the available count are
replaced by the available count. -/
def clampProcesses (nAvailable p : Int) : Int :=
  if p = -1 ∨ nAvailable < p then nAvailable else p

/-- Embedding of `_validate_processes`: clamp `processes` against
`mp.cpu_count()` (passed in as `nAvailable`). -/
def validate_processes (nAvailable : Int) (c : JValue) : JValue :=
  match get2 c "ms2rescore" "processes" with
  | some (JValue.int p) =>
    set2 c "ms2rescore" "processes" (JValue.int (clampProcesses nAvailable p))
  | _ => c

/-- Embedding of the dict comprehension `{k.lower(): v for k, v in d.items()}`
(`config_parser.py` lines 115 to 120): build a new dict by assigning each
lower-cased key in iteration order, so when two keys collide after
lower-casing, the entry keeps the first insertion position and the last
colliding value, exactly like a Python dict. -/
def lowerKeys (l : List (String × JValue)) : List (String × JValue) :=
  l.foldl (fun a kv => setField a (strLower kv.1) kv.2) []

/-- Lower-case the keys of one pluggable-component section
(`config_parser.py` lines 114 to 120). -/
def lowerSection (key : String) (c : JValue) : JValue :=
  match get2 c "ms2rescore" key with
  | some (JValue.obj l) => set2 c "ms2rescore" key (JValue.obj (lowerKeys l))
  | _ => c

/-- The key-normalization step at the end of `parse_configurations`:
lower-case the `feature_generators` and `rescoring_engine` section keys. -/
def normalizeComponentKeys (c : JValue) : JValue :=
  lowerSection "rescoring_engine" (lowerSection "feature_generators" c)

/-- Everything `parse_configurations` does before the key-normalization
step: cascade resolution, then `_validate_filenames`, then
`_validate_processes`. -/
def resolveAndValidate (fs : FileSystem) (schema : JValue → Bool) (defaults : JValue)
    (nAvailable : Int) (srcs : List ConfigSource) :
    Except Err JValue × FileSystem × List FsEvent :=
  match cascadeResolve fs schema defaults srcs with
  | (Except.error e, ev) => (Except.error e, fs, ev)
  | (Except.ok merged, ev) =>
    match validate_filenames fs merged with
    | (Except.error e, fs2, ev2) => (Except.error e, fs2, ev ++ ev2)
    | (Except.ok c1, fs2, ev2) =>
      (Except.ok (validate_processes nAvailable c1), fs2, ev ++ ev2)

/-- Embedding of `parse_configurations` (`config_parser.py` lines 58 to
122) on an already-listified `configurations` argument. The validation
schema, default configuration (packaged data files not under `src/`), host
CPU count and file system are explicit parameters. -/
def parse_configurations_core (fs : FileSystem) (schema : JValue → Bool)
    (defaults : JValue) (nAvailable : Int) (srcs : List ConfigSource) :
    Except Err JValue × FileSystem × List FsEvent :=
  match resolveAndValidate fs schema defaults nAvailable srcs with
  | (Except.error e, fs2, ev) => (Except.error e, fs2, ev)
  | (Except.ok c, fs2, ev) => (Except.ok (normalizeComponentKeys c), fs2, ev)

/-- The raw `configurations` argument of `parse_configurations`: either a
single source or a list of sources. -/
inductive ConfigInput where
  | single (s : ConfigSource)
  | listOf (l : List ConfigSource)

/-- The listification at `config_parser.py` lines 72 to 73: a non-list
argument is wrapped in a singleton list. -/
def ConfigInput.toList : ConfigInput → List ConfigSource
  | .single s => [s]
  | .listOf l => l

/-- Embedding of `parse_configurations` on the raw argument. -/
def parse_configurations (fs : FileSystem) (schema : JValue → Bool)
    (defaults : JValue) (nAvailable : Int) (input : ConfigInput) :
    Except Err JValue × FileSystem × List FsEvent :=
  parse_configurations_core fs schema defaults nAvailable input.toList

/-- Modelled from the spec: the validation schema (`config_schema.json`,
not present under `src/`) declares `processes` as an integer (spec
section 6 gives `"processes": integer` with no further bound beyond the
`-1` sentinel). This predicate captures exactly that constraint. -/
def processesSchemaOk (c : JValue) : Bool :=
  match get2 c "ms2rescore" "processes" with
  | some (JValue.int _) => true
  | _ => false

/-- Outcome of running `main` (`src/ms2rescore/__init__.py`) up to and
including pipeline selection: either the process exits with a code, or a
normalization pipeline starts. -/
inductive RunOutcome where
  | exited (code : Nat)
  | pipelineStarted (kind : String)
  deriving DecidableEq

/-- Did the run exit before any pipeline stage? -/
def RunOutcome.isExited : RunOutcome → Bool
  | .exited _ => true
  | .pipelineStarted _ => false

/-- Embedding of the pre-flight checks of `main` (`__init__.py` lines 104
to 115): a failed Percolator check exits with code 1 when rescoring is
enabled; a failed MS2PIP check exits with code 0 (the literal argument of
the `exit` call at line 115). -/
def mainPreflight (runPercolator percolatorCallable ms2pipCallable : Bool) : Option Nat :=
  if runPercolator && !percolatorCallable then some 1
  else if !ms2pipCallable then some 0
  else none

/-- Embedding of `main` from the pre-flight checks through pipeline
selection (`__init__.py` lines 104 to 127). -/
def mainFlow (runPercolator percolatorCallable ms2pipCallable : Bool)
    (pipeline : String) : RunOutcome :=
  match mainPreflight runPercolator percolatorCallable ms2pipCallable with
  | some c => .exited c
  | none =>
    if strLower pipeline = "maxquant" then .pipelineStarted "maxquant"
    else if ["msgfplus", "msgf+", "ms-gf+"].contains (strLower pipeline) then
      .pipelineStarted "msgfplus"
    else if ["tandem", "xtandem", "x!tandem"].contains (strLower pipeline) then
      .pipelineStarted "tandem"
    else .exited 1

/-- Is `sub` a contiguous substring of `s`? Used to state whether an error
message names an extension. -/
def isPrefixL : List Char → List Char → Bool
  | [], _ => true
  | _ :: _, [] => false
  | a :: as, b :: bs => a == b && isPrefixL as bs

/-- Substring occurrence on character lists. -/
def containsSubL : List Char → List Char → Bool
  | sub, [] => isPrefixL sub []
  | sub, c :: cs => isPrefixL sub (c :: cs) || containsSubL sub cs

/-- Substring occurrence on strings. -/
def strContains (s sub : String) : Bool :=
  containsSubL sub.data s.data

/-- The component section of a configuration: the fields of
`config["ms2rescore"][key]` when that value is an object, `[]` otherwise. -/
def sectionFields (c : JValue) (key : String) : List (String × JValue) :=
  match get2 c "ms2rescore" key with
  | some (JValue.obj l) => l
  | _ => []

/-- A file system holding the PSM file `id.csv` and the directory `.`. -/
def fsId : FileSystem :=
  { files := [("id.csv", JValue.null)], dirs := ["."] }

/-- An empty file system: no files, no directories. -/
def fsEmpty : FileSystem :=
  { files := [], dirs := [] }

/-- A file system holding one configuration file with an upper-case
spelling of the `.json` extension. -/
def fsJson : FileSystem :=
  { files := [("c.JSON", JValue.obj [])], dirs := [] }

/-- A schema-valid default configuration whose `processes` entry is `0`. -/
def defaultsP0 : JValue := JValue.obj [("ms2rescore", JValue.obj
  [("psm_file", JValue.str "id.csv"), ("spectrum_path", JValue.null),
   ("output_path", JValue.null), ("processes", JValue.int 0),
   ("feature_generators", JValue.obj []), ("rescoring_engine", JValue.obj [])])]

/-- The configuration produced by `parse_configurations_core` from
`defaultsP0` over `fsId` with 4 available CPUs and no extra sources. -/
def p0cfg : JValue := JValue.obj [("ms2rescore", JValue.obj
  [("psm_file", JValue.str "id.csv"), ("spectrum_path", JValue.null),
   ("output_path", JValue.str "."), ("processes", JValue.int 0),
   ("feature_generators", JValue.obj []), ("rescoring_engine", JValue.obj [])])]

/-- A default configuration with upper-case component-section keys. -/
def defaultsUpper : JValue := JValue.obj [("ms2rescore", JValue.obj
  [("psm_file", JValue.str "id.csv"), ("spectrum_path", JValue.null),
   ("output_path", JValue.null), ("processes", JValue.int 2),
   ("feature_generators", JValue.obj [("MS2PIP", JValue.obj [("model", JValue.str "HCD")])]),
   ("rescoring_engine", JValue.obj [("Percolator", JValue.obj [])])])]

/-- The configuration produced by `resolveAndValidate` from `defaultsUpper`
over `fsId` with 4 available CPUs and no extra sources (component keys not
yet normalized). -/
def c8cfg : JValue := JValue.obj [("ms2rescore", JValue.obj
  [("psm_file", JValue.str "id.csv"), ("spectrum_path", JValue.null),
   ("output_path", JValue.str "."), ("processes", JValue.int 2),
   ("feature_generators", JValue.obj [("MS2PIP", JValue.obj [("model", JValue.str "HCD")])]),
   ("rescoring_engine", JValue.obj [("Percolator", JValue.obj [])])])]

/-- A default configuration whose `feature_generators` section holds two
keys that collide after lower-casing (`MS2PIP` and `ms2pip`), with
different options values. -/
def defaultsCollide : JValue := JValue.obj [("ms2rescore", JValue.obj
  [("psm_file", JValue.str "id.csv"), ("spectrum_path", JValue.null),
   ("output_path", JValue.null), ("processes", JValue.int 2),
   ("feature_generators", JValue.obj
     [("MS2PIP", JValue.obj [("model", JValue.str "HCD")]), ("ms2pip", JValue.obj [])]),
   ("rescoring_engine", JValue.obj [("Percolator", JValue.obj [])])])]

/-- The configuration produced by `parse_configurations_core` from
`defaultsCollide` over `fsId` with 4 available CPUs and no extra sources:
the colliding `MS2PIP` entry's value is dropped, only the last colliding
value survives under the single `ms2pip` key. -/
def collideCfg : JValue := JValue.obj [("ms2rescore", JValue.obj
  [("psm_file", JValue.str "id.csv"), ("spectrum_path", JValue.null),
   ("output_path", JValue.str "."), ("processes", JValue.int 2),
   ("feature_generators", JValue.obj [("ms2pip", JValue.obj [])]),
   ("rescoring_engine", JValue.obj [("percolator", JValue.obj [])])])]

/-!  Helper lemmas. -/

theorem charLower_toNat_of (c : Char) (h : 65 ≤ c.toNat ∧ c.toNat ≤ 90) :
    (charLower c).toNat = c.toNat + 32 := by
  have hv : Nat.isValidChar (c.toNat + 32) := Or.inl (by omega)
  unfold charLower
  rw [if_pos h, Char.ofNat, dif_pos hv]
  rfl

theorem charLower_not_upper (c : Char) :
    ¬(65 ≤ (charLower c).toNat ∧ (charLower c).toNat ≤ 90) := by
  by_cases h : 65 ≤ c.toNat ∧ c.toNat ≤ 90
  · have := charLower_toNat_of c h
    omega
  · unfold charLower
    rw [if_neg h]
    exact h

theorem charLower_idem (c : Char) : charLower (charLower c) = charLower c := by
  have h := charLower_not_upper c
  calc charLower (charLower c)
      = if 65 ≤ (charLower c).toNat ∧ (charLower c).toNat ≤ 90
          then Char.ofNat ((charLower c).toNat + 32) else charLower c := rfl
    _ = charLower c := if_neg h

theorem strLower_idem (s : String) : strLower (strLower s) = strLower s := by
  show String.mk (((s.data.map charLower)).map charLower) = String.mk (s.data.map charLower)
  rw [List.map_map]
  congr 1
  apply List.map_congr_left
  intro c _
  exact charLower_idem c

theorem getField_setField_self (l : List (String × JValue)) (k : String) (v : JValue) :
    getField (setField l k v) k = some v := by
  induction l with
  | nil => simp [setField, getField]
  | cons kv rest ih =>
    obtain ⟨k1, w⟩ := kv
    by_cases h : k1 = k
    · simp [setField, getField, h]
    · simp [setField, getField, h, ih]

theorem getField_setField_ne (l : List (String × JValue)) (k k' : String) (v : JValue)
    (h : k ≠ k') : getField (setField l k v) k' = getField l k' := by
  induction l with
  | nil => simp [setField, getField, h]
  | cons kv rest ih =>
    obtain ⟨k1, w⟩ := kv
    by_cases h1 : k1 = k
    · subst h1
      simp [setField, getField, h]
    · simp [setField, getField, h1, ih]

theorem get2_set2_self (c : JValue) (k1 k2 : String) (v w : JValue)
    (h : get2 c k1 k2 = some w) :
    get2 (set2 c k1 k2 v) k1 k2 = some v := by
  cases c with
  | obj l =>
    simp only [get2, JValue.getKey] at h
    cases hF : getField l k1 with
    | none => simp [hF] at h
    | some sub =>
      simp only [hF] at h
      cases sub with
      | obj m =>
        simp [get2, set2, JValue.getKey, JValue.setKey, hF, getField_setField_self]
      | null => simp [JValue.getKey] at h
      | bool b => simp [JValue.getKey] at h
      | int n => simp [JValue.getKey] at h
      | str s => simp [JValue.getKey] at h
      | arr a => simp [JValue.getKey] at h
  | null => simp [get2, JValue.getKey] at h
  | bool b => simp [get2, JValue.getKey] at h
  | int n => simp [get2, JValue.getKey] at h
  | str s => simp [get2, JValue.getKey] at h
  | arr a => simp [get2, JValue.getKey] at h

theorem get2_set2_ne (c : JValue) (k1 k2 k2' : String) (v : JValue) (h : k2 ≠ k2') :
    get2 (set2 c k1 k2 v) k1 k2' = get2 c k1 k2' := by
  cases c with
  | obj l =>
    cases hF : getField l k1 with
    | none => simp [get2, set2, JValue.getKey, hF]
    | some sub =>
      cases sub with
      | obj m =>
        simp [get2, set2, JValue.getKey, JValue.setKey, hF, getField_setField_self,
          getField_setField_ne m k2 k2' v h]
      | null => simp [get2, set2, JValue.getKey, JValue.setKey, hF, getField_setField_self]
      | bool b => simp [get2, set2, JValue.getKey, JValue.setKey, hF, getField_setField_self]
      | int n => simp [get2, set2, JValue.getKey, JValue.setKey, hF, getField_setField_self]
      | str s => simp [get2, set2, JValue.getKey, JValue.setKey, hF, getField_setField_self]
      | arr a => simp [get2, set2, JValue.getKey, JValue.setKey, hF, getField_setField_self]
  | null => rfl
  | bool b => rfl
  | int n => rfl
  | str s => rfl
  | arr a => rfl

theorem mergeVal_null (d : Nat) (b : JValue) : mergeVal d b JValue.null = b := by
  cases d with
  | zero => rfl
  | succ d => cases b <;> rfl

theorem getField_append_left (l1 l2 : List (String × JValue)) (k : String) (v : JValue)
    (h : getField l1 k = some v) : getField (l1 ++ l2) k = some v := by
  induction l1 with
  | nil => cases h
  | cons kv rest ih =>
    obtain ⟨k1, w⟩ := kv
    by_cases h1 : k1 = k
    · simp only [getField, if_pos h1] at h
      simp only [List.cons_append, getField, if_pos h1]
      exact h
    · simp only [getField, if_neg h1] at h
      simp only [List.cons_append, getField, if_neg h1]
      exact ih h

theorem getField_mergeBaseWith (f : JValue → JValue → JValue)
    (bs ns : List (String × JValue)) (k : String) (v : JValue)
    (hb : getField bs k = some v) (hn : getField ns k = some JValue.null)
    (hf : f v JValue.null = v) :
    getField (mergeBaseWith f bs ns) k = some v := by
  induction bs with
  | nil => cases hb
  | cons kv rest ih =>
    obtain ⟨k1, w⟩ := kv
    by_cases h1 : k1 = k
    · subst h1
      simp only [getField, if_pos rfl] at hb
      injection hb with hb
      subst hb
      simp [mergeBaseWith, hn, getField, hf]
    · simp only [getField, if_neg h1] at hb
      cases hN : getField ns k1 <;>
        simp only [mergeBaseWith, hN, getField, if_neg h1] <;>
        exact ih hb

theorem configRead_not_mkdir (e : FsEvent) (h : e.isConfigRead = true) :
    e.isMkdir = false := by
  cases e <;> simp [FsEvent.isConfigRead, FsEvent.isMkdir] at h ⊢

theorem adaptSource_events_read (fs : FileSystem) (s : ConfigSource) :
    ∀ e ∈ (adaptSource fs s).2, e.isConfigRead = true := by
  intro e he
  cases s with
  | dict d => simp [adaptSource] at he
  | file p =>
    by_cases h1 : strLower (pathSuffix p) = ".json"
    · simp only [adaptSource, if_pos h1] at he
      cases hL : lookupFile fs p <;> simp [hL] at he <;> simp [he, FsEvent.isConfigRead]
    · by_cases h2 : strLower (pathSuffix p) = ".toml"
      · simp only [adaptSource, if_neg h1, if_pos h2] at he
        cases hL : lookupFile fs p <;> simp [hL] at he <;> simp [he, FsEvent.isConfigRead]
      · simp [adaptSource, if_neg h1, if_neg h2] at he
  | args a => simp [adaptSource] at he
  | other d => simp [adaptSource] at he

theorem adaptAll_events_read (fs : FileSystem) (srcs : List ConfigSource) :
    ∀ e ∈ (adaptAll fs srcs).2, e.isConfigRead = true := by
  induction srcs with
  | nil => intro e he; simp [adaptAll] at he
  | cons s rest ih =>
    intro e he
    have hev := adaptSource_events_read fs s
    cases hS : adaptSource fs s with
    | mk r ev =>
      rw [hS] at hev
      simp only [adaptAll, hS] at he
      cases r with
      | error err =>
        exact hev e he
      | ok v =>
        cases hA : adaptAll fs rest with
        | mk r2 ev2 =>
          have ih2 := ih
          rw [hA] at ih2
          rw [hA] at he
          cases r2 <;> simp only [] at he <;> rw [List.mem_append] at he <;>
            rcases he with he | he
          · exact hev e he
          · exact ih2 e he
          · exact hev e he
          · exact ih2 e he

theorem adaptAll_cons_error (fs : FileSystem) (s : ConfigSource) (rest : List ConfigSource)
    (e : Err) (ev : List FsEvent) (h : adaptSource fs s = (Except.error e, ev)) :
    adaptAll fs (s :: rest) = (Except.error e, ev) := by
  simp only [adaptAll, h]

theorem adaptAll_append_error (fs : FileSystem) (pre rest : List ConfigSource)
    (e : Err)
    (hpre : ∀ s ∈ pre, ∃ v evs, adaptSource fs s = (Except.ok v, evs))
    (h : (adaptAll fs rest).1 = Except.error e) :
    (adaptAll fs (pre ++ rest)).1 = Except.error e := by
  induction pre with
  | nil => simpa using h
  | cons s pre ih =>
    obtain ⟨v, evs, hs⟩ := hpre s (by simp)
    have ih2 := ih (fun s2 hs2 => hpre s2 (by simp [hs2]))
    simp only [List.cons_append, adaptAll, hs]
    cases hA : adaptAll fs (pre ++ rest) with
    | mk r ev2 =>
      rw [hA] at ih2
      cases r with
      | error e2 =>
        simp only [] at ih2 ⊢
        exact ih2
      | ok vs => simp at ih2

theorem cascadeResolve_snd (fs : FileSystem) (schema : JValue → Bool) (defaults : JValue)
    (srcs : List ConfigSource) :
    (cascadeResolve fs schema defaults srcs).2 = (adaptAll fs srcs).2 := rfl

theorem cascadeResolve_error_of_adapt (fs : FileSystem) (schema : JValue → Bool)
    (defaults : JValue) (srcs : List ConfigSource) (e : Err)
    (h : (adaptAll fs srcs).1 = Except.error e) :
    (cascadeResolve fs schema defaults srcs).1 = Except.error e := by
  simp only [cascadeResolve, h]

theorem resolveAndValidate_of_cascade_error (fs : FileSystem) (schema : JValue → Bool)
    (defaults : JValue) (n : Int) (srcs : List ConfigSource) (e : Err)
    (h : (cascadeResolve fs schema defaults srcs).1 = Except.error e) :
    resolveAndValidate fs schema defaults n srcs = (Except.error e, fs, (adaptAll fs srcs).2) := by
  unfold resolveAndValidate
  cases hC : cascadeResolve fs schema defaults srcs with
  | mk r ev =>
    rw [hC] at h
    simp only [] at h
    subst h
    have h2 : ev = (adaptAll fs srcs).2 := by
      rw [← cascadeResolve_snd fs schema defaults srcs, hC]
    rw [h2]

theorem parse_core_of_cascade_error (fs : FileSystem) (schema : JValue → Bool)
    (defaults : JValue) (n : Int) (srcs : List ConfigSource) (e : Err)
    (h : (cascadeResolve fs schema defaults srcs).1 = Except.error e) :
    parse_configurations_core fs schema defaults n srcs
      = (Except.error e, fs, (adaptAll fs srcs).2) := by
  unfold parse_configurations_core
  rw [resolveAndValidate_of_cascade_error fs schema defaults n srcs e h]

theorem resolveAndValidate_of_validate_error (fs : FileSystem) (schema : JValue → Bool)
    (defaults : JValue) (n : Int) (srcs : List ConfigSource) (merged : JValue)
    (ev : List FsEvent) (e : Err) (fs2 : FileSystem) (ev2 : List FsEvent)
    (hC : cascadeResolve fs schema defaults srcs = (Except.ok merged, ev))
    (hV : validate_filenames fs merged = (Except.error e, fs2, ev2)) :
    resolveAndValidate fs schema defaults n srcs = (Except.error e, fs2, ev ++ ev2) := by
  unfold resolveAndValidate
  rw [hC]
  simp only [hV]

theorem parse_core_of_ok (fs : FileSystem) (schema : JValue → Bool) (defaults : JValue)
    (n : Int) (srcs : List ConfigSource) (c : JValue) (fs2 : FileSystem) (ev : List FsEvent)
    (h : resolveAndValidate fs schema defaults n srcs = (Except.ok c, fs2, ev)) :
    parse_configurations_core fs schema defaults n srcs
      = (Except.ok (normalizeComponentKeys c), fs2, ev) := by
  unfold parse_configurations_core
  rw [h]

theorem validate_filenames_psm_missing (fs : FileSystem) (config : JValue) (psm : String)
    (hpsm : get2 config "ms2rescore" "psm_file" = some (JValue.str psm))
    (hne : psm ≠ "")
    (hfile : isFile fs psm = false) :
    validate_filenames fs config
      = (Except.error (Err.fileNotFound psm), fs, [FsEvent.statFile psm]) := by
  have ht : truthy (JValue.str psm) = true := by
    simp [truthy, bne_iff_ne, hne]
  unfold validate_filenames
  rw [hpsm]
  simp only [ht, asString, hfile]
  simp

theorem sectionFields_lowerSection_self (c : JValue) (key : String) :
    sectionFields (lowerSection key c) key = lowerKeys (sectionFields c key) := by
  cases hE : get2 c "ms2rescore" key with
  | none => simp [lowerSection, sectionFields, hE, lowerKeys]
  | some v =>
    cases v with
    | obj l =>
      have h2 := get2_set2_self c "ms2rescore" key (JValue.obj (lowerKeys l)) (JValue.obj l) hE
      simp [lowerSection, sectionFields, hE, h2]
    | null => simp [lowerSection, sectionFields, hE, lowerKeys]
    | bool b => simp [lowerSection, sectionFields, hE, lowerKeys]
    | int n => simp [lowerSection, sectionFields, hE, lowerKeys]
    | str s => simp [lowerSection, sectionFields, hE, lowerKeys]
    | arr a => simp [lowerSection, sectionFields, hE, lowerKeys]

theorem sectionFields_lowerSection_other (c : JValue) (key key' : String) (h : key ≠ key') :
    sectionFields (lowerSection key c) key' = sectionFields c key' := by
  cases hE : get2 c "ms2rescore" key with
  | none => simp [lowerSection, hE]
  | some v =>
    cases v with
    | obj l =>
      have h2 := get2_set2_ne c "ms2rescore" key key' (JValue.obj (lowerKeys l)) h
      simp [lowerSection, sectionFields, hE, h2]
    | null => simp [lowerSection, hE]
    | bool b => simp [lowerSection, hE]
    | int n => simp [lowerSection, hE]
    | str s => simp [lowerSection, hE]
    | arr a => simp [lowerSection, hE]

theorem getField_eq_none_append (l1 l2 : List (String × JValue)) (k : String)
    (h : getField l1 k = none) : getField (l1 ++ l2) k = getField l2 k := by
  induction l1 with
  | nil => rfl
  | cons kv rest ih =>
    obtain ⟨k1, w⟩ := kv
    by_cases h1 : k1 = k
    · simp [getField, h1] at h
    · simp only [getField, if_neg h1] at h
      simp only [List.cons_append, getField, if_neg h1]
      exact ih h

theorem setField_of_getField_none (l : List (String × JValue)) (k : String) (v : JValue)
    (h : getField l k = none) : setField l k v = l ++ [(k, v)] := by
  induction l with
  | nil => rfl
  | cons kv rest ih =>
    obtain ⟨k1, w⟩ := kv
    by_cases h1 : k1 = k
    · simp [getField, h1] at h
    · simp only [getField, if_neg h1] at h
      simp only [setField, if_neg h1, List.cons_append]
      rw [ih h]

theorem setField_keys_lower (l : List (String × JValue)) (k : String) (v : JValue)
    (hl : ∀ kv ∈ l, strLower kv.1 = kv.1) (hk : strLower k = k) :
    ∀ kv ∈ setField l k v, strLower kv.1 = kv.1 := by
  induction l with
  | nil =>
    intro kv hkv
    simp only [setField, List.mem_singleton] at hkv
    subst hkv
    exact hk
  | cons kw rest ih =>
    obtain ⟨k1, w⟩ := kw
    intro kv hkv
    by_cases h1 : k1 = k
    · simp only [setField, if_pos h1] at hkv
      rcases List.mem_cons.mp hkv with h2 | h2
      · subst h2
        exact hl (k1, w) (by simp)
      · exact hl kv (List.mem_cons_of_mem _ h2)
    · simp only [setField, if_neg h1] at hkv
      rcases List.mem_cons.mp hkv with h2 | h2
      · subst h2
        exact hl (k1, w) (by simp)
      · exact ih (fun kv2 hkv2 => hl kv2 (List.mem_cons_of_mem _ hkv2)) kv h2

theorem foldl_setField_keys_lower (l : List (String × JValue)) :
    ∀ acc, (∀ kv ∈ acc, strLower kv.1 = kv.1) →
    ∀ kv ∈ l.foldl (fun a kv => setField a (strLower kv.1) kv.2) acc, strLower kv.1 = kv.1 := by
  induction l with
  | nil => intro acc hacc; exact hacc
  | cons kw rest ih =>
    intro acc hacc
    simp only [List.foldl_cons]
    exact ih _ (setField_keys_lower acc (strLower kw.1) kw.2 hacc (strLower_idem kw.1))

theorem lowerKeys_keys_lower (l : List (String × JValue)) :
    ∀ kv ∈ lowerKeys l, strLower kv.1 = kv.1 :=
  foldl_setField_keys_lower l [] (by intro kv h; cases h)

theorem foldl_setField_eq_append (l : List (String × JValue)) :
    ∀ acc, (∀ kv ∈ l, getField acc (strLower kv.1) = none) →
    l.Pairwise (fun a b => strLower a.1 ≠ strLower b.1) →
    l.foldl (fun a kv => setField a (strLower kv.1) kv.2) acc
      = acc ++ l.map (fun kv => (strLower kv.1, kv.2)) := by
  induction l with
  | nil => intro acc _ _; simp
  | cons kw rest ih =>
    intro acc hnew hpair
    obtain ⟨hhead, htail⟩ := List.pairwise_cons.mp hpair
    simp only [List.foldl_cons, List.map_cons]
    rw [setField_of_getField_none acc (strLower kw.1) kw.2 (hnew kw (by simp))]
    rw [ih (acc ++ [(strLower kw.1, kw.2)]) ?_ htail]
    · rw [List.append_assoc]
      rfl
    · intro kv hkv
      rw [getField_eq_none_append _ _ _ (hnew kv (List.mem_cons_of_mem _ hkv))]
      have hne := hhead kv hkv
      simp [getField, hne]

theorem lowerKeys_eq_map (l : List (String × JValue))
    (hpair : l.Pairwise (fun a b => strLower a.1 ≠ strLower b.1)) :
    lowerKeys l = l.map (fun kv => (strLower kv.1, kv.2)) := by
  unfold lowerKeys
  rw [foldl_setField_eq_append l [] (fun kv _ => rfl) hpair]
  simp

theorem mem_lowerKeys_of_pairwise (l : List (String × JValue))
    (hpair : l.Pairwise (fun a b => strLower a.1 ≠ strLower b.1)) :
    ∀ kv ∈ l, (strLower kv.1, kv.2) ∈ lowerKeys l := by
  intro kv h
  rw [lowerKeys_eq_map l hpair]
  exact List.mem_map_of_mem _ h

/-!  Claim theorems. -/

/-- Claim C1 (counterexample to the claim as stated): a schema-valid
configuration whose `processes` value is `0` passes `parse_configurations`
unchanged: with 4 execution units available the run succeeds and the
resolved `processes` value is `0`, which is not positive. -/
theorem processes_zero_not_clamped :
    (parse_configurations_core fsId processesSchemaOk defaultsP0 4 []).1 = Except.ok p0cfg
    ∧ processesSchemaOk defaultsP0 = true
    ∧ get2 p0cfg "ms2rescore" "processes" = some (JValue.int 0)
    ∧ ¬(0 : Int) > 0 :=
  ⟨rfl, rfl, rfl, by decide⟩

/-- Claim C1 (amended): `_validate_processes` replaces the sentinel `-1`
and any request exceeding the available count by the available count, never
increases a non-sentinel request, never exceeds the available count, and
returns a positive value whenever the request is `-1` or positive (a
schema-valid non-positive request other than `-1`, such as `0`, is returned
unchanged). -/
theorem validate_processes_spec (n p : Int) (c : JValue) (hn : 1 ≤ n)
    (hp : get2 c "ms2rescore" "processes" = some (JValue.int p)) :
    get2 (validate_processes n c) "ms2rescore" "processes"
      = some (JValue.int (clampProcesses n p))
    ∧ clampProcesses n p ≤ n
    ∧ ((p = -1 ∨ n < p) → clampProcesses n p = n)
    ∧ (p ≠ -1 → clampProcesses n p ≤ p)
    ∧ ((p = -1 ∨ 0 < p) → 0 < clampProcesses n p) := by
  refine ⟨?_, ?_, ?_, ?_, ?_⟩
  · unfold validate_processes
    rw [hp]
    exact get2_set2_self c _ _ _ _ hp
  · by_cases h2 : p = -1 ∨ n < p
    · rw [clampProcesses, if_pos h2]
    · rw [clampProcesses, if_neg h2]
      omega
  · intro h2
    rw [clampProcesses, if_pos h2]
  · intro h2
    by_cases h3 : p = -1 ∨ n < p
    · rw [clampProcesses, if_pos h3]
      omega
    · rw [clampProcesses, if_neg h3]
  · intro h2
    by_cases h3 : p = -1 ∨ n < p
    · rw [clampProcesses, if_pos h3]
      omega
    · rw [clampProcesses, if_neg h3]
      omega

/-- Witness for the amended claim C1, at `n = 4`, `p = 0`. -/
theorem validate_processes_spec_witness :
    (1 : Int) ≤ 4
    ∧ get2 defaultsP0 "ms2rescore" "processes" = some (JValue.int 0)
    ∧ (get2 (validate_processes 4 defaultsP0) "ms2rescore" "processes"
        = some (JValue.int (clampProcesses 4 0))
      ∧ clampProcesses 4 0 ≤ 4
      ∧ (((0 : Int) = -1 ∨ (4 : Int) < 0) → clampProcesses 4 0 = 4)
      ∧ ((0 : Int) ≠ -1 → clampProcesses 4 0 ≤ 0)
      ∧ (((0 : Int) = -1 ∨ (0 : Int) < 0) → 0 < clampProcesses 4 0)) :=
  ⟨by decide, rfl, validate_processes_spec 4 0 defaultsP0 (by decide) rfl⟩

/-- Claim C2 (counterexample to the claim as stated): passing a value of an
unsupported type (modelled by `ConfigSource.other`) makes
`parse_configurations` fail with a `ValueError`, which is not the
`MS2RescoreConfigurationError` the claim names. -/
theorem unsupported_source_error_kind :
    parse_configurations_core fsId (fun _ => true) defaultsP0 4 [ConfigSource.other "an integer"]
      = (Except.error (Err.valueError badTypeMsg), fsId, [])
    ∧ Err.isConfigError (Err.valueError badTypeMsg) = false :=
  ⟨rfl, rfl⟩

/-- Claim C2 (amended): for every element of the configurations list that
is not a dict, not a str/Path and not a Namespace, `parse_configurations`
fails with a `ValueError` (raised when the offending element is reached,
i.e. when every earlier element adapts without error), with no directory
creation. -/
theorem parse_rejects_unsupported_source (fs : FileSystem) (schema : JValue → Bool)
    (defaults : JValue) (n : Int) (pre rest : List ConfigSource) (d : String)
    (hpre : ∀ s ∈ pre, ∃ v evs, adaptSource fs s = (Except.ok v, evs)) :
    ∃ ev, parse_configurations_core fs schema defaults n (pre ++ ConfigSource.other d :: rest)
        = (Except.error (Err.valueError badTypeMsg), fs, ev)
      ∧ ∀ e ∈ ev, FsEvent.isMkdir e = false := by
  have hs : adaptSource fs (ConfigSource.other d)
      = (Except.error (Err.valueError badTypeMsg), []) := rfl
  have h1 : (adaptAll fs (ConfigSource.other d :: rest)).1
      = Except.error (Err.valueError badTypeMsg) := by
    rw [adaptAll_cons_error fs _ rest _ [] hs]
  have h2 := adaptAll_append_error fs pre (ConfigSource.other d :: rest) _ hpre h1
  have h3 := cascadeResolve_error_of_adapt fs schema defaults _ _ h2
  refine ⟨(adaptAll fs (pre ++ ConfigSource.other d :: rest)).2,
    parse_core_of_cascade_error fs schema defaults n _ _ h3, ?_⟩
  intro e he
  exact configRead_not_mkdir e (adaptAll_events_read fs _ e he)

/-- Witness for the amended claim C2: an unsupported element alone in the
list. -/
theorem parse_rejects_unsupported_source_witness :
    (∀ s ∈ ([] : List ConfigSource), ∃ v evs, adaptSource fsId s = (Except.ok v, evs))
    ∧ ∃ ev, parse_configurations_core fsId (fun _ => true) defaultsP0 4
          ([] ++ ConfigSource.other "an integer" :: [])
        = (Except.error (Err.valueError badTypeMsg), fsId, ev)
      ∧ ∀ e ∈ ev, FsEvent.isMkdir e = false :=
  ⟨by simp, parse_rejects_unsupported_source fsId (fun _ => true) defaultsP0 4 [] [] "an integer"
    (by simp)⟩

/-- Claim C3 (code bug): when the spectrum-prediction executable (ms2pip)
is not callable, the orchestrator always aborts before any pipeline stage,
but the `exit(0)` call at `__init__.py` line 115 makes the process exit
with code `0`, not the non-zero code the spec requires (the sibling
Percolator check exits with code `1`). -/
theorem ms2pip_preflight_aborts_with_exit_zero :
    (∀ rp pc : Bool, ∀ pl : String, (mainFlow rp pc false pl).isExited = true)
    ∧ mainFlow false true false "maxquant" = RunOutcome.exited 0 := by
  constructor
  · intro rp pc pl
    cases rp <;> cases pc <;> rfl
  · rfl

/-- Claim C4: when the merged configuration's `psm_file` names a
nonexistent file, `parse_configurations` fails with a `FileNotFoundError`,
the file system is returned unchanged, and no directory-creation event
occurs (the `output_path` creation step is never reached). -/
theorem parse_missing_psm_no_dir_creation (fs : FileSystem) (schema : JValue → Bool)
    (defaults : JValue) (n : Int) (srcs : List ConfigSource) (merged : JValue)
    (ev : List FsEvent) (psm : String)
    (hres : cascadeResolve fs schema defaults srcs = (Except.ok merged, ev))
    (hpsm : get2 merged "ms2rescore" "psm_file" = some (JValue.str psm))
    (hne : psm ≠ "")
    (hfile : isFile fs psm = false) :
    parse_configurations_core fs schema defaults n srcs
      = (Except.error (Err.fileNotFound psm), fs, ev ++ [FsEvent.statFile psm])
    ∧ ∀ e ∈ ev ++ [FsEvent.statFile psm], FsEvent.isMkdir e = false := by
  have hV := validate_filenames_psm_missing fs merged psm hpsm hne hfile
  have hR := resolveAndValidate_of_validate_error fs schema defaults n srcs merged ev _ fs _ hres hV
  constructor
  · unfold parse_configurations_core
    rw [hR]
  · intro e he
    rw [List.mem_append] at he
    rcases he with he | he
    · have hev : ev = (adaptAll fs srcs).2 := by
        rw [← cascadeResolve_snd fs schema defaults srcs, hres]
      rw [hev] at he
      exact configRead_not_mkdir e (adaptAll_events_read fs srcs e he)
    · simp only [List.mem_singleton] at he
      subst he
      rfl

/-- Witness for claim C4: an empty file system, so the default `psm_file`
does not exist. -/
theorem parse_missing_psm_no_dir_creation_witness :
    cascadeResolve fsEmpty (fun _ => true) defaultsP0 [] = (Except.ok defaultsP0, [])
    ∧ get2 defaultsP0 "ms2rescore" "psm_file" = some (JValue.str "id.csv")
    ∧ "id.csv" ≠ ""
    ∧ isFile fsEmpty "id.csv" = false
    ∧ (parse_configurations_core fsEmpty (fun _ => true) defaultsP0 4 []
        = (Except.error (Err.fileNotFound "id.csv"), fsEmpty, [] ++ [FsEvent.statFile "id.csv"])
      ∧ ∀ e ∈ ([] : List FsEvent) ++ [FsEvent.statFile "id.csv"], FsEvent.isMkdir e = false) :=
  ⟨rfl, rfl, by decide, rfl,
    parse_missing_psm_no_dir_creation fsEmpty (fun _ => true) defaultsP0 4 [] defaultsP0 []
      "id.csv" rfl rfl (by decide) rfl⟩

/-- Claim C5 (counterexample to the claim as stated): for a `.yaml`
configuration file the raised `MS2RescoreConfigurationError` carries the
fixed message of `config_parser.py` line 97, which does not name the
unsupported `yaml` extension. -/
theorem unknown_extension_message_lacks_extension :
    parse_configurations_core fsId (fun _ => true) defaultsP0 4 [ConfigSource.file "conf.yaml"]
      = (Except.error (Err.configurationError unknownExtMsg), fsId, [])
    ∧ strContains unknownExtMsg "yaml" = false :=
  ⟨rfl, rfl⟩

/-- Claim C5 (amended): a file source whose extension is neither `.json`
nor `.toml` (case-insensitively) makes `parse_configurations` fail with a
`MS2RescoreConfigurationError` whose fixed message names the two supported
extensions but not the offending one, before any file I/O on `psm_file`:
the file system is unchanged and the only events are configuration-file
reads of earlier sources. -/
theorem parse_unknown_extension_before_file_io (fs : FileSystem) (schema : JValue → Bool)
    (defaults : JValue) (n : Int) (pre rest : List ConfigSource) (p : String)
    (hpre : ∀ s ∈ pre, ∃ v evs, adaptSource fs s = (Except.ok v, evs))
    (hj : strLower (pathSuffix p) ≠ ".json")
    (ht : strLower (pathSuffix p) ≠ ".toml") :
    ∃ ev, parse_configurations_core fs schema defaults n (pre ++ ConfigSource.file p :: rest)
        = (Except.error (Err.configurationError unknownExtMsg), fs, ev)
      ∧ (∀ e ∈ ev, FsEvent.isConfigRead e = true)
      ∧ strContains unknownExtMsg "json" = true
      ∧ strContains unknownExtMsg "toml" = true := by
  have hs : adaptSource fs (ConfigSource.file p)
      = (Except.error (Err.configurationError unknownExtMsg), []) := by
    simp [adaptSource, if_neg hj, if_neg ht]
  have h1 : (adaptAll fs (ConfigSource.file p :: rest)).1
      = Except.error (Err.configurationError unknownExtMsg) := by
    rw [adaptAll_cons_error fs _ rest _ [] hs]
  have h2 := adaptAll_append_error fs pre (ConfigSource.file p :: rest) _ hpre h1
  have h3 := cascadeResolve_error_of_adapt fs schema defaults _ _ h2
  refine ⟨(adaptAll fs (pre ++ ConfigSource.file p :: rest)).2,
    parse_core_of_cascade_error fs schema defaults n _ _ h3,
    adaptAll_events_read fs _, by decide, by decide⟩

/-- Witness for the amended claim C5: a lone `.yaml` file source. -/
theorem parse_unknown_extension_before_file_io_witness :
    (∀ s ∈ ([] : List ConfigSource), ∃ v evs, adaptSource fsId s = (Except.ok v, evs))
    ∧ strLower (pathSuffix "conf.yaml") ≠ ".json"
    ∧ strLower (pathSuffix "conf.yaml") ≠ ".toml"
    ∧ ∃ ev, parse_configurations_core fsId (fun _ => true) defaultsP0 4
          ([] ++ ConfigSource.file "conf.yaml" :: [])
        = (Except.error (Err.configurationError unknownExtMsg), fsId, ev)
      ∧ (∀ e ∈ ev, FsEvent.isConfigRead e = true)
      ∧ strContains unknownExtMsg "json" = true
      ∧ strContains unknownExtMsg "toml" = true :=
  ⟨by simp, by decide, by decide,
    parse_unknown_extension_before_file_io fsId (fun _ => true) defaultsP0 4 [] [] "conf.yaml"
      (by simp) (by decide) (by decide)⟩

/-- Claim C6: in the cascading merge, a key mapped to null in the later
source never overwrites the value that key has in the earlier
(accumulated) source. -/
theorem merge_null_never_overwrites (bs ns : List (String × JValue)) (k : String) (v : JValue)
    (hb : getField bs k = some v) (hn : getField ns k = some JValue.null) :
    JValue.getKey (mergeTop (JValue.obj bs) (JValue.obj ns)) k = some v := by
  show JValue.getKey (JValue.obj (mergeBaseWith (mergeVal 1) bs ns
      ++ ns.filter (fun kv => (getField bs kv.1).isNone))) k = some v
  simp only [JValue.getKey]
  exact getField_append_left _ _ _ _ (getField_mergeBaseWith _ _ _ _ _ hb hn (mergeVal_null 1 v))

/-- Witness for claim C6: `{a: 1}` merged with `{a: null, b: 2}` keeps
`a = 1`. -/
theorem merge_null_never_overwrites_witness :
    getField [("a", JValue.int 1)] "a" = some (JValue.int 1)
    ∧ getField [("a", JValue.null), ("b", JValue.int 2)] "a" = some JValue.null
    ∧ JValue.getKey (mergeTop (JValue.obj [("a", JValue.int 1)])
        (JValue.obj [("a", JValue.null), ("b", JValue.int 2)])) "a" = some (JValue.int 1) :=
  ⟨rfl, rfl, merge_null_never_overwrites [("a", JValue.int 1)]
    [("a", JValue.null), ("b", JValue.int 2)] "a" (JValue.int 1) rfl rfl⟩

/-- Claim C7: cascade resolution with an empty source list succeeds and
yields exactly the compiled-in defaults (provided the defaults themselves
are schema-valid, as the packaged defaults are). -/
theorem cascade_empty_sources_defaults (fs : FileSystem) (schema : JValue → Bool)
    (defaults : JValue) (h : schema defaults = true) :
    cascadeResolve fs schema defaults [] = (Except.ok defaults, []) := by
  simp [cascadeResolve, adaptAll, h]

/-- Witness for claim C7, with the modelled `processes` schema. -/
theorem cascade_empty_sources_defaults_witness :
    processesSchemaOk defaultsP0 = true
    ∧ cascadeResolve fsId processesSchemaOk defaultsP0 [] = (Except.ok defaultsP0, []) :=
  ⟨rfl, cascade_empty_sources_defaults fsId processesSchemaOk defaultsP0 rfl⟩

/-- Claim C8 (counterexample to the claim as stated): when two keys of the
`feature_generators` section collide after lower-casing (`MS2PIP` and
`ms2pip`), the dict comprehension at `config_parser.py` lines 115 to 117
keeps only the last colliding value, so the `MS2PIP` entry's options value
is not carried over: after a successful run the section maps `ms2pip` to
the empty options, not to the `MS2PIP` entry's options. -/
theorem component_key_collision_drops_value :
    (parse_configurations_core fsId (fun _ => true) defaultsCollide 4 []).1
      = Except.ok collideCfg
    ∧ getField (sectionFields defaultsCollide "feature_generators") "MS2PIP"
      = some (JValue.obj [("model", JValue.str "HCD")])
    ∧ sectionFields collideCfg "feature_generators" = [("ms2pip", JValue.obj [])]
    ∧ getField (sectionFields collideCfg "feature_generators") "ms2pip"
      = some (JValue.obj [])
    ∧ JValue.obj [] ≠ JValue.obj [("model", JValue.str "HCD")] :=
  ⟨rfl, rfl, rfl, rfl, by simp⟩

/-- Claim C8 (amended): on success, `parse_configurations` lower-cases
every key of the `feature_generators` and `rescoring_engine` sections,
whatever the input casing; when no two keys of a section collide after
lower-casing, each key's options value is carried over unchanged (on a
collision, only the last colliding entry's value is kept). -/
theorem parse_normalizes_component_keys (fs : FileSystem) (schema : JValue → Bool)
    (defaults : JValue) (n : Int) (srcs : List ConfigSource) (c0 : JValue)
    (fs2 : FileSystem) (tr : List FsEvent)
    (hpre : resolveAndValidate fs schema defaults n srcs = (Except.ok c0, fs2, tr)) :
    parse_configurations_core fs schema defaults n srcs
      = (Except.ok (normalizeComponentKeys c0), fs2, tr)
    ∧ (∀ kv ∈ sectionFields (normalizeComponentKeys c0) "feature_generators",
        strLower kv.1 = kv.1)
    ∧ (∀ kv ∈ sectionFields (normalizeComponentKeys c0) "rescoring_engine",
        strLower kv.1 = kv.1)
    ∧ ((sectionFields c0 "feature_generators").Pairwise
          (fun a b => strLower a.1 ≠ strLower b.1) →
        ∀ kv ∈ sectionFields c0 "feature_generators",
          (strLower kv.1, kv.2) ∈ sectionFields (normalizeComponentKeys c0) "feature_generators")
    ∧ ((sectionFields c0 "rescoring_engine").Pairwise
          (fun a b => strLower a.1 ≠ strLower b.1) →
        ∀ kv ∈ sectionFields c0 "rescoring_engine",
          (strLower kv.1, kv.2) ∈ sectionFields (normalizeComponentKeys c0) "rescoring_engine") := by
  have hfg : sectionFields (normalizeComponentKeys c0) "feature_generators"
      = lowerKeys (sectionFields c0 "feature_generators") := by
    unfold normalizeComponentKeys
    rw [sectionFields_lowerSection_other _ "rescoring_engine" "feature_generators" (by decide),
      sectionFields_lowerSection_self]
  have hre : sectionFields (normalizeComponentKeys c0) "rescoring_engine"
      = lowerKeys (sectionFields c0 "rescoring_engine") := by
    unfold normalizeComponentKeys
    rw [sectionFields_lowerSection_self,
      sectionFields_lowerSection_other _ "feature_generators" "rescoring_engine" (by decide)]
  refine ⟨parse_core_of_ok _ _ _ _ _ _ _ _ hpre, ?_, ?_, ?_, ?_⟩
  · rw [hfg]
    exact lowerKeys_keys_lower _
  · rw [hre]
    exact lowerKeys_keys_lower _
  · intro hpair
    rw [hfg]
    exact mem_lowerKeys_of_pairwise _ hpair
  · intro hpair
    rw [hre]
    exact mem_lowerKeys_of_pairwise _ hpair

/-- Witness for the amended claim C8: defaults with the upper-case section
keys `MS2PIP` and `Percolator` (no lower-case collisions). -/
theorem parse_normalizes_component_keys_witness :
    resolveAndValidate fsId (fun _ => true) defaultsUpper 4 []
      = (Except.ok c8cfg, fsId, [FsEvent.statFile "id.csv"])
    ∧ (parse_configurations_core fsId (fun _ => true) defaultsUpper 4 []
        = (Except.ok (normalizeComponentKeys c8cfg), fsId, [FsEvent.statFile "id.csv"])
      ∧ (∀ kv ∈ sectionFields (normalizeComponentKeys c8cfg) "feature_generators",
          strLower kv.1 = kv.1)
      ∧ (∀ kv ∈ sectionFields (normalizeComponentKeys c8cfg) "rescoring_engine",
          strLower kv.1 = kv.1)
      ∧ ((sectionFields c8cfg "feature_generators").Pairwise
            (fun a b => strLower a.1 ≠ strLower b.1) →
          ∀ kv ∈ sectionFields c8cfg "feature_generators",
            (strLower kv.1, kv.2) ∈ sectionFields (normalizeComponentKeys c8cfg) "feature_generators")
      ∧ ((sectionFields c8cfg "rescoring_engine").Pairwise
            (fun a b => strLower a.1 ≠ strLower b.1) →
          ∀ kv ∈ sectionFields c8cfg "rescoring_engine",
            (strLower kv.1, kv.2) ∈ sectionFields (normalizeComponentKeys c8cfg) "rescoring_engine")) :=
  ⟨rfl, parse_normalizes_component_keys fsId (fun _ => true) defaultsUpper 4 [] c8cfg fsId
    [FsEvent.statFile "id.csv"] rfl⟩

/-- Claim C9: extension dispatch is case-insensitive: any path whose
suffix lower-cases to `.json` (resp. `.toml`) is read with the JSON
(resp. TOML) reader rather than rejected. -/
theorem extension_dispatch_case_insensitive (fs : FileSystem) (p : String) (v : JValue)
    (hv : lookupFile fs p = some v) :
    (strLower (pathSuffix p) = ".json" →
      adaptSource fs (ConfigSource.file p) = (Except.ok v, [FsEvent.readJson p]))
    ∧ (strLower (pathSuffix p) = ".toml" →
      adaptSource fs (ConfigSource.file p) = (Except.ok v, [FsEvent.readToml p])) := by
  constructor
  · intro h
    simp [adaptSource, if_pos h, hv]
  · intro h
    have hne : ¬strLower (pathSuffix p) = ".json" := by
      rw [h]
      decide
    simp [adaptSource, if_neg hne, if_pos h, hv]

/-- Witness for claim C9: the upper-case extension `.JSON` is accepted and
read with the JSON reader. -/
theorem extension_dispatch_case_insensitive_witness :
    lookupFile fsJson "c.JSON" = some (JValue.obj [])
    ∧ ((strLower (pathSuffix "c.JSON") = ".json" →
        adaptSource fsJson (ConfigSource.file "c.JSON")
          = (Except.ok (JValue.obj []), [FsEvent.readJson "c.JSON"]))
      ∧ (strLower (pathSuffix "c.JSON") = ".toml" →
        adaptSource fsJson (ConfigSource.file "c.JSON")
          = (Except.ok (JValue.obj []), [FsEvent.readToml "c.JSON"]))) :=
  ⟨rfl, extension_dispatch_case_insensitive fsJson "c.JSON" (JValue.obj []) rfl⟩

/-- Claim C10: passing a single non-list source to `parse_configurations`
is equivalent to passing the singleton list containing it. -/
theorem parse_single_source_eq_singleton (fs : FileSystem) (schema : JValue → Bool)
    (defaults : JValue) (n : Int) (s : ConfigSource) :
    parse_configurations fs schema defaults n (ConfigInput.single s)
      = parse_configurations fs schema defaults n (ConfigInput.listOf [s]) := rfl

end MS2Rescore
